import Mathlib

/-!
Verification of the metadata-extraction and dependency-resolution core of
`whl.py` (the `Wheel` class): wheel-filename parsing, METADATA parsing with
implicit-extra backfill, and dependency-set resolution for a requested extra.

The embedding translates the repository's Python directly. Calls into
external libraries (`pkg_resources.parse_requirements`, the `packaging`
marker evaluator, `email.parser`, `os.path`) are modelled from the spec,
as flagged in the corresponding doc comments.
-/

namespace Whl

/-- One side of a marker comparison, mirroring `packaging.markers`:
either an environment `Variable` (such as `extra`) or a literal `Value`. -/
inductive MarkerAtom where
  | var (value : String)
  | val (value : String)

/-- The `.value` attribute shared by `Variable` and `Value` nodes. -/
def MarkerAtom.value : MarkerAtom → String
  | .var v => v
  | .val v => v

/-- One element of a marker's `_markers` list, mirroring `packaging.markers`:
a comparison tuple `(lhs, op, rhs)` or a boolean connective string
(`"and"` / `"or"`).  Parenthesised nested sub-lists are not modelled; the
markers exercised here are flat sequences of comparisons and connectives. -/
inductive MarkerNode where
  | leaf (lhs : MarkerAtom) (op : String) (rhs : MarkerAtom)
  | conn (value : String)

/-- Modelled from the spec: the marker environment consists of the single
variable `extra`, bound to the requested extra name or absent.  Looking up
any other variable yields `none`; a literal denotes itself. -/
def atom_lookup (env : Option String) : MarkerAtom → Option String
  | .var v => if v = "extra" then env else none
  | .val s => some s

/-- Modelled from the spec: evaluate one leaf comparison of a marker against
the single-variable environment.  Equality and inequality compare the two
looked-up values (an absent `extra` compares unequal to every literal, as in
the source's evaluation with `extra = None`); other comparison operators are
outside the spec's core contract and evaluate to `false`. -/
def eval_leaf (env : Option String) (lhs : MarkerAtom) (op : String) (rhs : MarkerAtom) : Bool :=
  if op = "==" then decide (atom_lookup env lhs = atom_lookup env rhs)
  else if op = "!=" then !(decide (atom_lookup env lhs = atom_lookup env rhs))
  else false

/-- Modelled from the spec: evaluate a flat marker sequence as a disjunction
(split at `"or"` connectives) of conjunctions of leaf comparisons, the
grouping used by the external marker evaluator.  `conj` is the conjunction
accumulated for the current group and `disj` the disjunction of the groups
already finished. -/
def marker_evaluate_aux (env : Option String) : List MarkerNode → Bool → Bool → Bool
  | [], conj, disj => disj || conj
  | .conn s :: rest, conj, disj =>
      if s = "or" then marker_evaluate_aux env rest true (disj || conj)
      else marker_evaluate_aux env rest conj disj
  | .leaf lhs op rhs :: rest, conj, disj =>
      marker_evaluate_aux env rest (conj && eval_leaf env lhs op rhs) disj

/-- Modelled from the spec: `marker.evaluate({"extra": extra})` for a marker
with `_markers` list `markers`. -/
def marker_evaluate (env : Option String) (markers : List MarkerNode) : Bool :=
  marker_evaluate_aux env markers true false

/-- A parsed requirement as produced by `pkg_resources.parse_requirements`:
a project name, a tuple of extras, and an optional marker (its `_markers`
list).  Version constraints carry no weight in the resolved output and are
not recorded. -/
structure Requirement where
  project_name : String
  extras : List String
  marker : Option (List MarkerNode)

/-- The dictionary returned by `Wheel._parse_metadata`: the `Name` header,
the ordered `run_requires` list, and the accumulated set of extras. -/
structure MetadataRecord where
  name : Option String
  run_requires : List Requirement
  extras : Finset String

/-- Embeds the tuple branch of `find_marker_extra` in `whl.py`: for a
comparison `(lhs, op, rhs)`, if `lhs` is a `Variable` named `extra` the
result is `rhs.value` (the operator is not inspected); otherwise `None`. -/
def find_marker_extra_node : MarkerNode → Option String
  | .leaf (.var v) _ rhs => if v = "extra" then some rhs.value else none
  | .leaf (.val _) _ _ => none
  | .conn _ => none

/-- Embeds `find_marker_extra` of `whl.py` applied to a marker's `_markers`
list: recurse into the last element (`markers[-1]`).  The empty list, on
which the source would raise `IndexError`, never arises from a parsed
marker and yields `none`. -/
def find_marker_extra : List MarkerNode → Option String
  | [] => none
  | [n] => find_marker_extra_node n
  | _ :: n :: rest => find_marker_extra (n :: rest)

/-- Embeds the per-requirement backfill loop of `Wheel._parse_metadata`:
when the requirement has a marker and `find_marker_extra` yields a truthy
string (non-`None` and non-empty), append it to the requirement's extras
tuple unconditionally (`requirement.extras += (marker_extra,)`). -/
def backfill (r : Requirement) : Requirement :=
  match r.marker with
  | none => r
  | some m =>
      match find_marker_extra m with
      | none => r
      | some e => if e = "" then r else { r with extras := r.extras ++ [e] }

/-- Python truthiness of the optional `extra` argument of
`Wheel.dependencies`: `None` and the empty string are falsy. -/
def truthy : Option String → Bool
  | none => false
  | some s => !(s == "")

/-- The third guard of the loop in `Wheel.dependencies`: a requirement with
a marker passes only if the marker evaluates to true in the environment
binding `extra` to the requested extra. -/
def marker_pass (extra : Option String) (r : Requirement) : Bool :=
  match r.marker with
  | none => true
  | some m => marker_evaluate extra m

/-- The loop body of `Wheel.dependencies` for one requirement: skip when no
(truthy) extra is requested but the requirement has extras; skip when a
truthy extra is requested, the requirement has extras, and the requested
extra is not among them; finally apply the marker guard. -/
def req_included (extra : Option String) (r : Requirement) : Bool :=
  if !(truthy extra) && !r.extras.isEmpty then false
  else if truthy extra && !r.extras.isEmpty && !(decide ((extra.getD "") ∈ r.extras)) then false
  else marker_pass extra r

/-- Embeds `Wheel.dependencies`: the set of project names of the
requirements that survive the three guards. -/
def dependencies (md : MetadataRecord) (extra : Option String) : Finset String :=
  ((md.run_requires.filter (req_included extra)).map Requirement.project_name).toFinset

/-- Lowercasing of a header name, character by character, for the
case-insensitive field matching of the external RFC-822 parser. -/
def lower (s : String) : String := String.mk (s.data.map Char.toLower)

/-- Modelled from the spec: the metadata text is an RFC-822-style header
block, represented here as its ordered list of `(fieldName, value)` pairs
(the external `email.parser` is the part that splits the raw text).
`get_all` returns the values of the fields matching `name`
case-insensitively, in order of appearance. -/
def get_all (fields : List (String × String)) (name : String) : List String :=
  (fields.filter (fun p => lower p.1 = lower name)).map (·.2)

/-- The first header value whose name matches case-insensitively, mirroring
`metadata.get("name")` of the external parser. -/
def get_first (fields : List (String × String)) (name : String) : Option String :=
  (fields.find? (fun p => lower p.1 = lower name)).map (·.2)

/-- Drops leading and trailing spaces, as the requirement grammar ignores
surrounding whitespace. -/
def strip_spaces (l : List Char) : List Char :=
  ((l.dropWhile (· = ' ')).reverse.dropWhile (· = ' ')).reverse

/-- Splits a character list at the first occurrence of `sep`, returning the
part before it and, when `sep` occurs, the part after it. -/
def split_first (sep : Char) : List Char → List Char × Option (List Char)
  | [] => ([], none)
  | c :: cs =>
      if c = sep then ([], some cs)
      else
        let p := split_first sep cs
        (c :: p.1, p.2)

/-- Splits a character list on every occurrence of `sep`, like Python's
`str.split` with a one-character separator: the result is never empty and
adjacent separators yield empty components. -/
def split_on (sep : Char) : List Char → List (List Char)
  | [] => [[]]
  | c :: cs =>
      if c = sep then [] :: split_on sep cs
      else
        match split_on sep cs with
        | [] => [[c]]
        | p :: ps => (c :: p) :: ps

/-- Characters allowed in a project name or extra name by the modelled
requirement grammar. -/
def is_name_char (c : Char) : Bool := c.isAlphanum || c = '_' || c = '.' || c = '-'

/-- Characters a comparison operator token is made of. -/
def is_op_char (c : Char) : Bool := c = '=' || c = '!' || c = '<' || c = '>' || c = '~'

/-- Modelled from the spec: one atom of a marker comparison, either a
double-quoted literal (a `Value`) or a bare identifier (a `Variable`). -/
def parse_atom : List Char → Option (MarkerAtom × List Char)
  | '"' :: cs =>
      let p := cs.span (· ≠ '"')
      match p.2 with
      | '"' :: rest => some (.val (String.mk p.1), rest)
      | _ => none
  | cs =>
      let p := cs.span is_name_char
      if p.1.isEmpty then none else some (.var (String.mk p.1), p.2)

/-- Modelled from the spec: the `; marker` suffix of a requirement, as a
single comparison `atom op atom` (the form the metadata in question uses);
anything else fails the parse. -/
def parse_marker (cs : List Char) : Option (List MarkerNode) :=
  match parse_atom (cs.dropWhile (· = ' ')) with
  | none => none
  | some (a1, r1) =>
      let p := (r1.dropWhile (· = ' ')).span is_op_char
      if p.1.isEmpty then none
      else
        match parse_atom (p.2.dropWhile (· = ' ')) with
        | none => none
        | some (a2, r3) =>
            if (r3.dropWhile (· = ' ')).isEmpty then some [.leaf a1 (String.mk p.1) a2]
            else none

/-- The comma-separated extras inside the brackets of `name[e1,e2]`. -/
def parse_extras (inside : List Char) : List String :=
  if (strip_spaces inside).isEmpty then []
  else (split_on ',' inside).map (fun l => String.mk (strip_spaces l))

/-- Modelled from the spec: parse one requirement string of the form
`name (bracketed extras)? (; marker)?` into a `Requirement`, the external
`pkg_resources.parse_requirements` being outside the repository.  Version
constraint clauses, which the resolver never consults, are not accepted by
this modelled subset. -/
def parse_requirement (s : String) : Option Requirement :=
  let sp := split_first ';' s.data
  let body := strip_spaces sp.1
  let np := body.span is_name_char
  if np.1.isEmpty then none
  else
    let extras? : Option (List String) :=
      match np.2 with
      | [] => some []
      | '[' :: r =>
          let ip := r.span (· ≠ ']')
          match ip.2 with
          | ']' :: r3 => if (strip_spaces r3).isEmpty then some (parse_extras ip.1) else none
          | _ => none
      | rest => if (strip_spaces rest).isEmpty then some [] else none
    match extras? with
    | none => none
    | some exs =>
        match sp.2 with
        | none => some ⟨String.mk np.1, exs, none⟩
        | some mcs =>
            match parse_marker mcs with
            | none => none
            | some m => some ⟨String.mk np.1, exs, some m⟩

/-- Sequencing of `parse_requirement` over a list of requirement strings:
the whole parse fails if any single requirement fails, as a silently
dropped dependency would be worse than a hard failure. -/
def parse_requirements : List String → Option (List Requirement)
  | [] => some []
  | s :: ss =>
      (parse_requirement s).bind fun r => (parse_requirements ss).map fun rs => r :: rs

/-- Embeds `Wheel._parse_metadata`: the requirement strings are all
`Requires` values followed by all `Requires-Dist` values; each parsed
requirement is backfilled with its marker-derived implicit extra; the
record's extras set is the union of every requirement's extras after the
backfill; the record's name is the `Name` header. -/
def parse_metadata (fields : List (String × String)) : Option MetadataRecord :=
  match parse_requirements (get_all fields "Requires" ++ get_all fields "Requires-Dist") with
  | none => none
  | some reqs0 =>
      let reqs := reqs0.map backfill
      some { name := get_first fields "Name",
             run_requires := reqs,
             extras := reqs.foldl (fun s r => s ∪ r.extras.toFinset) ∅ }

/-- The `Wheel` object: it carries only the archive path. -/
structure Wheel where
  path : String

/-- Modelled from the spec: `os.path.basename`, the part of the path after
the last `/`. -/
def Wheel.basename (w : Wheel) : String :=
  ((split_on '/' w.path.data).map String.mk).getLastD ""

/-- Embeds `Wheel.distribution`: the first `-`-separated component of the
base filename. -/
def Wheel.distribution (w : Wheel) : String :=
  ((split_on '-' w.basename.data).map String.mk).headD ""

/-- Embeds `Wheel.version`: the second `-`-separated component of the base
filename; `none` models the `IndexError` the source raises when the split
has fewer than two components. -/
def Wheel.version (w : Wheel) : Option String :=
  ((split_on '-' w.basename.data).map String.mk).get? 1

/-- The character substitution of `Wheel.repository_name`:
`re.sub('[-.+]', '_', ...)` replaces each of `-`, `.`, `+` by `_`. -/
def escape_char (c : Char) : Char :=
  if c = '-' || c = '.' || c = '+' then '_' else c

/-- Embeds `Wheel.repository_name`: `pypi__{distribution}_{version}` with
the illegal characters escaped; `none` propagates the `IndexError` of
`Wheel.version`. -/
def Wheel.repository_name (w : Wheel) : Option String :=
  w.version.map (fun v =>
    String.mk (("pypi__" ++ w.distribution ++ "_" ++ v).data.map escape_char))

/-- On a marker list with a known last element, `find_marker_extra` is the
node-level inspection of that last element, mirroring `markers[-1]`. -/
theorem find_marker_extra_eq_getLast (l : List MarkerNode) (n : MarkerNode)
    (h : l.getLast? = some n) : find_marker_extra l = find_marker_extra_node n := by
  induction l with
  | nil => simp at h
  | cons a t ih =>
      cases t with
      | nil =>
          simp only [List.getLast?_singleton, Option.some.injEq] at h
          subst h
          rfl
      | cons b t2 =>
          rw [List.getLast?_cons_cons] at h
          exact ih h

/-- Parsing a concatenated list of requirement strings concatenates the
parsed requirement lists, in order. -/
theorem parse_requirements_append (a b : List String) (ra rb : List Requirement)
    (ha : parse_requirements a = some ra) (hb : parse_requirements b = some rb) :
    parse_requirements (a ++ b) = some (ra ++ rb) := by
  induction a generalizing ra with
  | nil =>
      simp only [parse_requirements, Option.some.injEq] at ha
      subst ha
      simpa using hb
  | cons s ss ih =>
      rw [List.cons_append]
      unfold parse_requirements at ha ⊢
      cases hps : parse_requirement s with
      | none => rw [hps] at ha; simp at ha
      | some r =>
          rw [hps] at ha
          cases hrec : parse_requirements ss with
          | none => rw [hrec] at ha; simp at ha
          | some rs =>
              rw [hrec] at ha
              rw [ih rs hrec]
              simp only [Option.some_bind, Option.map_some', Option.some.injEq] at ha
              subst ha
              simp

/-- The metadata of claim C1: exactly the three `Requires-Dist`
requirements of the spec's worked example. -/
def c1_fields : List (String × String) :=
  [("Requires-Dist", "six"),
   ("Requires-Dist", "mock; extra == \"test\""),
   ("Requires-Dist", "requests[security]; extra == \"security\"")]

/-- C1: for the record parsed from requirements `six`,
`mock; extra == "test"` and `requests[security]; extra == "security"`,
resolving with no extra yields exactly `six`, with extra `test` exactly
`six, mock`, with extra `security` exactly `six, requests`, and the
record's discovered extras set is exactly `test, security`. -/
theorem c1_concrete_resolution :
    ((parse_metadata c1_fields).map fun md => dependencies md none) = some {"six"} ∧
    ((parse_metadata c1_fields).map fun md => dependencies md (some "test"))
      = some {"six", "mock"} ∧
    ((parse_metadata c1_fields).map fun md => dependencies md (some "security"))
      = some {"six", "requests"} ∧
    ((parse_metadata c1_fields).map (·.extras)) = some {"test", "security"} := by
  decide

/-- C2: a requirement with no marker and an empty extras set is included in
the resolved dependency set, both when no extra is requested and when any
extra whatsoever is requested. -/
theorem c2_unconditional_requirements (md : MetadataRecord) (r : Requirement)
    (extra : Option String) (hr : r ∈ md.run_requires) (hm : r.marker = none)
    (he : r.extras = []) : r.project_name ∈ dependencies md extra := by
  unfold dependencies
  rw [List.mem_toFinset]
  refine List.mem_map.mpr ⟨r, List.mem_filter.mpr ⟨hr, ?_⟩, rfl⟩
  simp [req_included, marker_pass, hm, he]

/-- Witness for C2 at the record `[six]` and the requested extra
`anything`. -/
theorem c2_witness :
    (Requirement.mk "six" [] none) ∈
      (MetadataRecord.mk none [Requirement.mk "six" [] none] ∅).run_requires ∧
    (Requirement.mk "six" [] none).marker = none ∧
    (Requirement.mk "six" [] none).extras = [] ∧
    "six" ∈ dependencies (MetadataRecord.mk none [Requirement.mk "six" [] none] ∅)
      (some "anything") :=
  ⟨List.Mem.head _, rfl, rfl,
    c2_unconditional_requirements _ _ (some "anything") (List.Mem.head _) rfl rfl⟩

/-- Counterexample to C3 as stated: for the record parsed from the single
requirement `six` (whose extras set is empty) and the present requested
extra `test`, the claim predicts that `six` is skipped; the code includes
it, so the resolved set is `{six}` and not empty. -/
theorem c3_counterexample :
    ((parse_metadata [("Requires-Dist", "six")]).map fun md =>
      md.run_requires.map (·.extras)) = some [[]] ∧
    ((parse_metadata [("Requires-Dist", "six")]).map fun md =>
      dependencies md (some "test")) = some {"six"} := by
  decide

/-- C3 as amended: for every requirement `r` and every present non-empty
requested extra `e`, the resolver skips `r` exactly when `r.extras` is
non-empty and `e` is not a member of `r.extras`; a requirement with empty
extras is not skipped by this guard and proceeds to marker evaluation. -/
theorem c3_amended_skip (r : Requirement) (e : String) (he : e ≠ "") :
    req_included (some e) r
      = ((r.extras.isEmpty || decide (e ∈ r.extras)) && marker_pass (some e) r) := by
  have ht : truthy (some e) = true := by simp [truthy, he]
  cases hemp : r.extras.isEmpty <;> cases hc : decide (e ∈ r.extras) <;>
    simp [req_included, ht, hemp, hc]

/-- Witness for C3's amended theorem at the extra `test` and a requirement
declaring that extra. -/
theorem c3_witness :
    ("test" : String) ≠ "" ∧
    req_included (some "test") (Requirement.mk "mock" ["test"] none)
      = (((["test"] : List String).isEmpty || decide (("test" : String) ∈ (["test"] : List String)))
          && marker_pass (some "test") (Requirement.mk "mock" ["test"] none)) :=
  ⟨by decide, c3_amended_skip (Requirement.mk "mock" ["test"] none) "test" (by decide)⟩

/-- Counterexample to C4 as stated: the code attaches an implicit extra
even when the operator is `!=` (the claim requires `==`), and appends even
when the literal is already present (the claim requires appending only when
absent): `mock; extra != "test"` gains extras `[test]`, and
`requests[security]; extra == "security"` ends with the duplicated extras
`[security, security]`. -/
theorem c4_counterexample :
    ((parse_metadata [("Requires-Dist", "mock; extra != \"test\"")]).map fun md =>
      md.run_requires.map (·.extras)) = some [["test"]] ∧
    ((parse_metadata [("Requires-Dist", "requests[security]; extra == \"security\"")]).map
      fun md => md.run_requires.map (·.extras)) = some [["security", "security"]] := by
  decide

/-- C4 as amended: for a requirement whose marker's right-most top-level
sub-expression is a leaf comparing the variable on its left-hand side to a
literal, the literal is attached as an implicit extra exactly when that
variable is `extra` and the literal is non-empty, regardless of the
comparison operator, and it is appended unconditionally, even when already
present. -/
theorem c4_amended_backfill (r : Requirement) (m : List MarkerNode)
    (v op s : String) (hm : r.marker = some m)
    (hlast : m.getLast? = some (.leaf (.var v) op (.val s))) :
    (backfill r).extras = r.extras ++ (if v = "extra" ∧ s ≠ "" then [s] else []) := by
  have hfind : find_marker_extra m = (if v = "extra" then some s else none) := by
    rw [find_marker_extra_eq_getLast m _ hlast]; rfl
  by_cases hv : v = "extra"
  · by_cases hs : s = ""
    · subst hs; simp [backfill, hm, hfind, hv]
    · simp [backfill, hm, hfind, hv, hs]
  · simp [backfill, hm, hfind, hv]

/-- Witness for C4's amended theorem at the marker `extra == "dev"` on a
requirement with no declared extras. -/
theorem c4_witness :
    (Requirement.mk "mock" [] (some [.leaf (.var "extra") "==" (.val "dev")])).marker
      = some [.leaf (.var "extra") "==" (.val "dev")] ∧
    ([MarkerNode.leaf (.var "extra") "==" (.val "dev")]).getLast?
      = some (.leaf (.var "extra") "==" (.val "dev")) ∧
    (backfill (Requirement.mk "mock" [] (some [.leaf (.var "extra") "==" (.val "dev")]))).extras
      = [] ++ (if ("extra" : String) = "extra" ∧ ("dev" : String) ≠ "" then ["dev"] else []) :=
  ⟨rfl, rfl, c4_amended_backfill _ _ "extra" "==" "dev" rfl rfl⟩

/-- Counterexample to C5 as stated: for the record parsed from
`foo; "test" == extra`, the requested extra `test` is not in the record's
(empty) extras set, yet resolving with it contributes `foo`, which the base
resolution does not contain. -/
theorem c5_counterexample :
    ((parse_metadata [("Requires-Dist", "foo; \"test\" == extra")]).map (·.extras))
      = some ∅ ∧
    ((parse_metadata [("Requires-Dist", "foo; \"test\" == extra")]).map fun md =>
      dependencies md (some "test")) = some {"foo"} ∧
    ((parse_metadata [("Requires-Dist", "foo; \"test\" == extra")]).map fun md =>
      dependencies md none) = some ∅ := by
  decide

/-- C5 as amended: requesting an extra outside the record's extras set
yields exactly the base dependency set (in particular, no additional
names and no failure) provided every requirement's extras are covered by
the record's extras set (as the parser guarantees) and every requirement's
marker is insensitive to requested-versus-absent extra; markers comparing a
literal against the `extra` variable violate that proviso. -/
theorem c5_amended_unknown_extra (md : MetadataRecord) (e : String)
    (hcov : ∀ r ∈ md.run_requires, ∀ x ∈ r.extras, x ∈ md.extras)
    (hnot : e ∉ md.extras)
    (hmk : ∀ r ∈ md.run_requires, marker_pass (some e) r = marker_pass none r) :
    dependencies md (some e) = dependencies md none := by
  unfold dependencies
  have hfil : md.run_requires.filter (req_included (some e))
      = md.run_requires.filter (req_included none) := by
    apply List.filter_congr
    intro r hr
    have hmp := hmk r hr
    cases hemp : r.extras.isEmpty with
    | true => simp [req_included, truthy, hemp, hmp]
    | false =>
        have hcon : decide (e ∈ r.extras) = false := by
          rw [decide_eq_false_iff_not]
          intro hmem
          exact hnot (hcov r hr e hmem)
        cases hte : truthy (some e) <;>
          simp [req_included, truthy, hemp, hte, hcon] <;>
          exact fun h1 h2 => absurd h2 h1
  rw [hfil]

/-- Witness for C5's amended theorem: a two-requirement record with extras
set `{test}` and the unknown requested extra `zzz`. -/
theorem c5_witness :
    (∀ r ∈ (MetadataRecord.mk none
        [Requirement.mk "six" [] none, Requirement.mk "mock" ["test"] none]
        {"test"}).run_requires, ∀ x ∈ r.extras, x ∈ (MetadataRecord.mk none
        [Requirement.mk "six" [] none, Requirement.mk "mock" ["test"] none]
        {"test"}).extras) ∧
    ("zzz" : String) ∉ (MetadataRecord.mk none
        [Requirement.mk "six" [] none, Requirement.mk "mock" ["test"] none]
        {"test"}).extras ∧
    (∀ r ∈ (MetadataRecord.mk none
        [Requirement.mk "six" [] none, Requirement.mk "mock" ["test"] none]
        {"test"}).run_requires, marker_pass (some "zzz") r = marker_pass none r) ∧
    dependencies (MetadataRecord.mk none
        [Requirement.mk "six" [] none, Requirement.mk "mock" ["test"] none]
        {"test"}) (some "zzz")
      = dependencies (MetadataRecord.mk none
        [Requirement.mk "six" [] none, Requirement.mk "mock" ["test"] none]
        {"test"}) none :=
  ⟨by decide, by decide, by decide,
    c5_amended_unknown_extra _ "zzz" (by decide) (by decide) (by decide)⟩

/-- C6: whenever the version component exists, the repository key is
`pypi__{distribution}_{version}` with every `-`, `.` and `+` replaced by
`_`. -/
theorem c6_repository_key (w : Wheel) (v : String) (h : w.version = some v) :
    w.repository_name = some (String.mk
      (("pypi__" ++ w.distribution ++ "_" ++ v).data.map
        (fun c => if c = '-' || c = '.' || c = '+' then '_' else c))) := by
  unfold Wheel.repository_name
  rw [h]
  rfl

/-- Witness for C6 at the spec's example filename
`google_cloud-0.27.0-py2.py3-none-any`: distribution `google_cloud`,
version `0.27.0`, repository key `pypi__google_cloud_0_27_0`. -/
theorem c6_witness :
    (Wheel.mk "google_cloud-0.27.0-py2.py3-none-any").version = some "0.27.0" ∧
    (Wheel.mk "google_cloud-0.27.0-py2.py3-none-any").distribution = "google_cloud" ∧
    (Wheel.mk "google_cloud-0.27.0-py2.py3-none-any").repository_name
      = some "pypi__google_cloud_0_27_0" :=
  ⟨by decide, by decide,
    (c6_repository_key (Wheel.mk "google_cloud-0.27.0-py2.py3-none-any") "0.27.0"
      (by decide)).trans (by decide)⟩

/-- C7: the parsed record's requirement sequence is all `Requires` values
followed by all `Requires-Dist` values, each group parsed in its order of
appearance, with the `Requires` group strictly first. -/
theorem c7_requires_order (fields : List (String × String)) (rs1 rs2 : List Requirement)
    (h1 : parse_requirements (get_all fields "Requires") = some rs1)
    (h2 : parse_requirements (get_all fields "Requires-Dist") = some rs2) :
    ∃ md, parse_metadata fields = some md ∧
      md.run_requires = rs1.map backfill ++ rs2.map backfill := by
  have happ := parse_requirements_append _ _ _ _ h1 h2
  unfold parse_metadata
  rw [happ]
  exact ⟨_, rfl, List.map_append _ _ _⟩

/-- The metadata of C7's witness: one `Requires` field and one
`Requires-Dist` field. -/
def c7_fields : List (String × String) :=
  [("Requires", "alpha"), ("Requires-Dist", "beta")]

/-- Witness for C7 at a record carrying one `Requires` and one
`Requires-Dist` value. -/
theorem c7_witness :
    parse_requirements (get_all c7_fields "Requires")
      = some [Requirement.mk "alpha" [] none] ∧
    parse_requirements (get_all c7_fields "Requires-Dist")
      = some [Requirement.mk "beta" [] none] ∧
    ∃ md, parse_metadata c7_fields = some md ∧
      md.run_requires = [Requirement.mk "alpha" [] none].map backfill
        ++ [Requirement.mk "beta" [] none].map backfill :=
  ⟨rfl, rfl, c7_requires_order c7_fields _ _ rfl rfl⟩

/-- C8: parsing is a pure function, so two parses of the same metadata
yield records with identical name, identical requirement lists in the same
order, and identical extras sets. -/
theorem c8_parse_deterministic (fields : List (String × String))
    (md1 md2 : MetadataRecord)
    (h1 : parse_metadata fields = some md1) (h2 : parse_metadata fields = some md2) :
    md1.name = md2.name ∧ md1.run_requires = md2.run_requires ∧
      md1.extras = md2.extras := by
  have h : md1 = md2 := Option.some.inj (h1.symm.trans h2)
  subst h
  exact ⟨rfl, rfl, rfl⟩

/-- The metadata of C8's witness. -/
def c8_fields : List (String × String) := [("Name", "pkg"), ("Requires-Dist", "six")]

/-- The record C8's witness parses twice. -/
def c8_record : MetadataRecord := (parse_metadata c8_fields).getD ⟨none, [], ∅⟩

/-- Witness for C8: both parses of `c8_fields` yield `c8_record`, whose
components therefore coincide. -/
theorem c8_witness :
    parse_metadata c8_fields = some c8_record ∧
    (c8_record.name = c8_record.name ∧ c8_record.run_requires = c8_record.run_requires ∧
      c8_record.extras = c8_record.extras) :=
  ⟨rfl, c8_parse_deterministic c8_fields c8_record c8_record rfl rfl⟩

/-- On a character list free of the separator, the Python-style split
returns the single whole component. -/
theorem split_on_no_sep (sep : Char) (l : List Char) (h : sep ∉ l) :
    split_on sep l = [l] := by
  induction l with
  | nil => rfl
  | cons c cs ih =>
      have hc : ¬(c = sep) := by
        intro hh
        subst hh
        exact h (List.mem_cons_self c cs)
      unfold split_on
      rw [if_neg hc, ih (fun hm => h (List.mem_cons_of_mem c hm))]

/-- C9: for a path whose base filename contains no `-`, extracting the
distribution returns the whole base filename unchanged, while extracting
the version yields the out-of-range access modelled by `none` (the
source's uncaught `IndexError`) rather than a value or a dedicated parse
error. -/
theorem c9_no_dash_filename (p : String) (h : ('-' : Char) ∉ (Wheel.mk p).basename.data) :
    (Wheel.mk p).distribution = (Wheel.mk p).basename ∧
      (Wheel.mk p).version = none := by
  have hs := split_on_no_sep '-' (Wheel.mk p).basename.data h
  constructor
  · unfold Wheel.distribution
    rw [hs]
    rfl
  · unfold Wheel.version
    rw [hs]
    rfl

/-- Witness for C9 at the path `dir/abc`, whose base filename has no
dash. -/
theorem c9_witness :
    ('-' : Char) ∉ (Wheel.mk "dir/abc").basename.data ∧
    ((Wheel.mk "dir/abc").distribution = (Wheel.mk "dir/abc").basename ∧
      (Wheel.mk "dir/abc").version = none) :=
  ⟨by decide, c9_no_dash_filename "dir/abc" (by decide)⟩

/-- Counterexample to C10 as stated: for the record parsed from
`bar; extra == ""`, requesting the empty-string extra yields `{bar}` while
requesting no extra yields the empty set, because the marker environment
binds `extra` to `""` in one case and to the absent value in the other. -/
theorem c10_counterexample :
    ((parse_metadata [("Requires-Dist", "bar; extra == \"\"")]).map fun md =>
      dependencies md (some "")) = some {"bar"} ∧
    ((parse_metadata [("Requires-Dist", "bar; extra == \"\"")]).map fun md =>
      dependencies md none) = some ∅ := by
  decide

/-- C10 as amended: the empty-string extra passes the two extras guards
exactly as the absent extra does (every requirement with non-empty extras
is skipped), so the two resolutions coincide provided every requirement's
marker evaluates equally under the empty-string and absent environments;
a marker comparing `extra` with the empty literal distinguishes them. -/
theorem c10_amended_empty_extra (md : MetadataRecord)
    (hmk : ∀ r ∈ md.run_requires, marker_pass (some "") r = marker_pass none r) :
    dependencies md (some "") = dependencies md none := by
  unfold dependencies
  have hfil : md.run_requires.filter (req_included (some ""))
      = md.run_requires.filter (req_included none) := by
    apply List.filter_congr
    intro r hr
    cases hemp : r.extras.isEmpty <;>
      simp [req_included, truthy, hemp, hmk r hr]
  rw [hfil]

/-- Witness for C10's amended theorem at a marker-free two-requirement
record. -/
theorem c10_witness :
    (∀ r ∈ (MetadataRecord.mk none
        [Requirement.mk "six" [] none, Requirement.mk "mock" ["test"] none]
        {"test"}).run_requires, marker_pass (some "") r = marker_pass none r) ∧
    dependencies (MetadataRecord.mk none
        [Requirement.mk "six" [] none, Requirement.mk "mock" ["test"] none]
        {"test"}) (some "")
      = dependencies (MetadataRecord.mk none
        [Requirement.mk "six" [] none, Requirement.mk "mock" ["test"] none]
        {"test"}) none :=
  ⟨by decide, c10_amended_empty_extra _ (by decide)⟩

end Whl
